import Mathlib

/-!
Verification of the FastAPI address-book service (`src/main.py`).

The embedding models the data model and the four endpoint handlers:
`create_address`, `update_address`, `delete_address` and
`get_addresses_within_distance`.  Floats are modelled by `ℚ`.  The SQLite
table behind SQLAlchemy is external to the repository, so the store is
modelled from the spec as a list of live rows in insertion order together
with the auto-incrementing primary-key counter.  The geodesic distance
function comes from the external `geopy` library, so the proximity filter
takes the distance function as an explicit parameter.
-/

namespace AddressBook

/-- The `Address` ORM model of `src/main.py` (lines 13-29): an integer
primary key `id`, a `name`, and `latitude`/`longitude` coordinates. -/
structure Address where
  id : Nat
  name : String
  latitude : ℚ
  longitude : ℚ
deriving DecidableEq

/-- The `AddressCreate` request schema (lines 31-42): all three fields are
required. -/
structure AddressCreate where
  name : String
  latitude : ℚ
  longitude : ℚ
deriving DecidableEq

/-- The `AddressUpdate` request schema (lines 44-55): despite the docstring
saying "optional", all three fields are declared required. -/
structure AddressUpdate where
  name : String
  latitude : ℚ
  longitude : ℚ
deriving DecidableEq

/-- The result of `address_update.model_dump()` as consumed by the update
loop (lines 141-143): one value per field, each tested against `None`, so
each value is `Option`-typed here. -/
structure AddressUpdateDump where
  name : Option String
  latitude : Option ℚ
  longitude : Option ℚ

/-- `model_dump` of a well-typed `AddressUpdate`: every field is required,
so no dumped value is ever `None`. -/
def AddressUpdate.dump (u : AddressUpdate) : AddressUpdateDump :=
  ⟨some u.name, some u.latitude, some u.longitude⟩

/-- The field loop of `update_address` (lines 141-143): for each dumped
field, `setattr` the record only when the value `is not None`. -/
def applyDump (d : AddressUpdateDump) (a : Address) : Address :=
  let a1 := match d.name with
    | none => a
    | some v => { a with name := v }
  let a2 := match d.latitude with
    | none => a1
    | some v => { a1 with latitude := v }
  match d.longitude with
  | none => a2
  | some v => { a2 with longitude := v }

/-- An `HTTPException` as raised by the handlers: a status code and a
detail string. -/
structure HTTPError where
  statusCode : Nat
  detail : String
deriving DecidableEq

/-- The only error either handler raises:
`HTTPException(status_code=404, detail="Address not found")`
(lines 140 and 162). -/
def notFoundError : HTTPError := ⟨404, "Address not found"⟩

/-- Modelled from the spec: the SQLite `addresses` table is external to the
repository, so the store is its spec-level model — the live rows in
insertion order (the order `db.query(Address).all()` returns), plus the
auto-incrementing integer primary-key counter that "is unique across all
live records and never reused after deletion". -/
structure Store where
  records : List Address
  nextId : Nat

/-- Modelled from the spec: a freshly created table is empty and SQLite
assigns 1 as the first auto-increment key. -/
def initialStore : Store := ⟨[], 1⟩

/-- `create_address` (lines 103-119): build an `Address` row from the
request fields as-is (no range validation), insert it, and return it with
the freshly assigned id. -/
def create_address (address : AddressCreate) (s : Store) : Address × Store :=
  let db_address : Address := ⟨s.nextId, address.name, address.latitude, address.longitude⟩
  (db_address, ⟨s.records ++ [db_address], s.nextId + 1⟩)

/-- `db.query(Address).filter(Address.id == address_id).first()`
(lines 138 and 160). -/
def firstWithId (records : List Address) (address_id : Nat) : Option Address :=
  records.find? (fun a => a.id == address_id)

/-- Committing an in-place `setattr` update of the row whose primary key
matches: the row keeps its position, every other row is untouched. -/
def replaceFirstWithId (records : List Address) (address_id : Nat) (updated : Address) :
    List Address :=
  match records with
  | [] => []
  | a :: rest =>
    if a.id == address_id then updated :: rest
    else a :: replaceFirstWithId rest address_id updated

/-- Committing `db.delete` of the row whose primary key matches: the row is
removed, every other row keeps its position. -/
def removeFirstWithId (records : List Address) (address_id : Nat) : List Address :=
  match records with
  | [] => []
  | a :: rest =>
    if a.id == address_id then rest
    else a :: removeFirstWithId rest address_id

/-- `update_address` (lines 121-146): look the row up by id, raise 404 if
absent, otherwise `setattr` each non-`None` dumped field, commit, and
return the updated row. -/
def update_address (address_id : Nat) (address_update : AddressUpdate) (s : Store) :
    Except HTTPError (Address × Store) :=
  match firstWithId s.records address_id with
  | none => .error notFoundError
  | some db_address =>
    let updated := applyDump address_update.dump db_address
    .ok (updated, ⟨replaceFirstWithId s.records address_id updated, s.nextId⟩)

/-- `delete_address` (lines 148-165): look the row up by id, raise 404 if
absent, otherwise delete it and return the pre-deletion snapshot. -/
def delete_address (address_id : Nat) (s : Store) : Except HTTPError (Address × Store) :=
  match firstWithId s.records address_id with
  | none => .error notFoundError
  | some db_address =>
    .ok (db_address, ⟨removeFirstWithId s.records address_id, s.nextId⟩)

/-- `get_addresses_within_distance` (lines 167-193): scan all rows and keep
those whose distance from the reference point is `<= distance`.  The
external `geopy.distance.geodesic(...).kilometers` computation is passed in
as the parameter `dist` (reference latitude, reference longitude, record
latitude, record longitude). -/
def get_addresses_within_distance (dist : ℚ → ℚ → ℚ → ℚ → ℚ)
    (latitude longitude distance : ℚ) (addresses : List Address) : List Address :=
  match addresses with
  | [] => []
  | address :: rest =>
    if dist latitude longitude address.latitude address.longitude ≤ distance then
      address :: get_addresses_within_distance dist latitude longitude distance rest
    else
      get_addresses_within_distance dist latitude longitude distance rest

/-! ### Operation sequences

Reachable store states are those produced by running a sequence of the
three mutating endpoints from the fresh store.  A failing update or delete
(404) leaves the store unchanged. -/

/-- One mutating endpoint invocation. -/
inductive Op where
  | createOp (address : AddressCreate) : Op
  | updateOp (address_id : Nat) (address_update : AddressUpdate) : Op
  | deleteOp (address_id : Nat) : Op

/-- The store state after one endpoint invocation; a 404 leaves the store
unchanged. -/
def applyOp (s : Store) : Op → Store
  | .createOp a => (create_address a s).2
  | .updateOp i u =>
    match update_address i u s with
    | .ok r => r.2
    | .error _ => s
  | .deleteOp i =>
    match delete_address i s with
    | .ok r => r.2
    | .error _ => s

/-- The store state after a sequence of endpoint invocations. -/
def runOps (s : Store) : List Op → Store
  | [] => s
  | op :: rest => runOps (applyOp s op) rest

/-- The ids handed out by the create operations of a run, in order. -/
def assignedIds (s : Store) : List Op → List Nat
  | [] => []
  | op :: rest =>
    match op with
    | .createOp a => (create_address a s).1.id :: assignedIds (applyOp s op) rest
    | _ => assignedIds (applyOp s op) rest

/-- Pairwise-distinct primary keys among the live rows. -/
def uniqueIds (records : List Address) : Prop :=
  records.Pairwise (fun a b => a.id ≠ b.id)

/-- Every live row's id is below the auto-increment counter. -/
def idsBelow (s : Store) : Prop :=
  ∀ r ∈ s.records, r.id < s.nextId

/-! ### Spec-modelled definitions -/

/-- Modelled from the spec: the properties the spec states of the external
geodesic distance — it is nonnegative ("distance ... cannot occur"
negative) and a reference point identical to a record's coordinates yields
distance 0. -/
def DistSpec (dist : ℚ → ℚ → ℚ → ℚ → ℚ) : Prop :=
  (∀ la lo la2 lo2, 0 ≤ dist la lo la2 lo2) ∧ (∀ la lo, dist la lo la lo = 0)

/-- Modelled from the spec: a distance on the ellipsoidal Earth model in
which every longitude at latitude 90 denotes the same surface point (the
north pole), as the geodesic distance does; elsewhere a plain taxicab
surrogate. -/
def poleDist (la1 lo1 la2 lo2 : ℚ) : ℚ :=
  if la1 = 90 ∧ la2 = 90 then 0 else |la1 - la2| + |lo1 - lo2|

/-- A definite distance surrogate: taxicab distance on coordinate pairs. -/
def taxiDist (la1 lo1 la2 lo2 : ℚ) : ℚ :=
  |la1 - la2| + |lo1 - lo2|

/-- Modelled from the spec: the update the spec describes, which
"overwrites all three fields unconditionally" on the found row. -/
def update_address_overwrite (address_id : Nat) (address_update : AddressUpdate) (s : Store) :
    Except HTTPError (Address × Store) :=
  match firstWithId s.records address_id with
  | none => .error notFoundError
  | some db_address =>
    let updated : Address :=
      ⟨db_address.id, address_update.name, address_update.latitude, address_update.longitude⟩
    .ok (updated, ⟨replaceFirstWithId s.records address_id updated, s.nextId⟩)

/-- A one-row store used to instantiate theorems with hypotheses. -/
def demoStore : Store := ⟨[⟨1, "origin", 0, 0⟩], 2⟩

/-! ### Helper lemmas about the proximity filter -/

theorem within_eq_filter (dist : ℚ → ℚ → ℚ → ℚ → ℚ) (latitude longitude distance : ℚ)
    (addresses : List Address) :
    get_addresses_within_distance dist latitude longitude distance addresses =
      addresses.filter (fun a => decide (dist latitude longitude a.latitude a.longitude ≤ distance)) := by
  induction addresses with
  | nil => rfl
  | cons a rest ih =>
    by_cases h : dist latitude longitude a.latitude a.longitude ≤ distance
    · simp [get_addresses_within_distance, List.filter_cons, h, ih]
    · simp [get_addresses_within_distance, List.filter_cons, h, ih]

theorem mem_within_iff (dist : ℚ → ℚ → ℚ → ℚ → ℚ) (latitude longitude distance : ℚ)
    (addresses : List Address) (r : Address) :
    r ∈ get_addresses_within_distance dist latitude longitude distance addresses ↔
      r ∈ addresses ∧ dist latitude longitude r.latitude r.longitude ≤ distance := by
  rw [within_eq_filter]
  simp [List.mem_filter]

theorem within_sublist (dist : ℚ → ℚ → ℚ → ℚ → ℚ) (latitude longitude distance : ℚ)
    (addresses : List Address) :
    (get_addresses_within_distance dist latitude longitude distance addresses).Sublist addresses := by
  rw [within_eq_filter]
  exact List.filter_sublist addresses

/-! ### Helper lemmas about the update loop -/

theorem applyDump_dump (u : AddressUpdate) (a : Address) :
    applyDump u.dump a = ⟨a.id, u.name, u.latitude, u.longitude⟩ := rfl

theorem applyDump_id (d : AddressUpdateDump) (a : Address) :
    (applyDump d a).id = a.id := by
  rcases d with ⟨n, la, lo⟩
  cases n <;> cases la <;> cases lo <;> rfl

/-! ### Helper lemmas about row lookup, replacement and removal -/

theorem firstWithId_eq_none (records : List Address) (i : Nat) :
    firstWithId records i = none ↔ ∀ r ∈ records, r.id ≠ i := by
  simp [firstWithId, List.find?_eq_none]

theorem id_of_firstWithId {records : List Address} {i : Nat} {a : Address}
    (h : firstWithId records i = some a) : a.id = i := by
  have := List.find?_some h
  simpa using this

theorem mem_of_firstWithId {records : List Address} {i : Nat} {a : Address}
    (h : firstWithId records i = some a) : a ∈ records :=
  List.mem_of_find?_eq_some h

theorem mem_replaceFirstWithId {records : List Address} {i : Nat} {u : Address} {r : Address}
    (h : r ∈ replaceFirstWithId records i u) : r ∈ records ∨ r = u := by
  induction records with
  | nil => simp [replaceFirstWithId] at h
  | cons a rest ih =>
    by_cases ha : a.id == i
    · simp only [replaceFirstWithId, if_pos ha, List.mem_cons] at h
      rcases h with h | h
      · exact Or.inr h
      · exact Or.inl (List.mem_cons_of_mem _ h)
    · simp only [replaceFirstWithId, if_neg ha, List.mem_cons] at h
      rcases h with h | h
      · exact Or.inl (h ▸ List.mem_cons_self _ _)
      · rcases ih h with h' | h'
        · exact Or.inl (List.mem_cons_of_mem _ h')
        · exact Or.inr h'

theorem self_mem_replaceFirstWithId {records : List Address} {i : Nat} {a : Address}
    (h : firstWithId records i = some a) (u : Address) :
    u ∈ replaceFirstWithId records i u := by
  induction records with
  | nil => simp [firstWithId, List.find?] at h
  | cons b rest ih =>
    by_cases hb : b.id == i
    · have hb' : b.id = i := by simpa using hb
      simp [replaceFirstWithId, hb']
    · simp only [firstWithId, List.find?, hb] at h
      simp only [replaceFirstWithId, if_neg hb, List.mem_cons]
      exact Or.inr (ih h)

theorem filter_replaceFirstWithId (records : List Address) (i : Nat) (u : Address)
    (hu : u.id = i) :
    (replaceFirstWithId records i u).filter (fun r => decide (r.id ≠ i)) =
      records.filter (fun r => decide (r.id ≠ i)) := by
  induction records with
  | nil => rfl
  | cons a rest ih =>
    by_cases ha : a.id = i
    · rw [replaceFirstWithId, if_pos (by simpa using ha)]
      rw [List.filter_cons, List.filter_cons]
      simp [ha, hu]
    · rw [replaceFirstWithId, if_neg (by simpa using ha)]
      rw [List.filter_cons, List.filter_cons]
      simp [ha]
      simpa using ih

theorem filter_removeFirstWithId (records : List Address) (i : Nat) :
    (removeFirstWithId records i).filter (fun r => decide (r.id ≠ i)) =
      records.filter (fun r => decide (r.id ≠ i)) := by
  induction records with
  | nil => rfl
  | cons a rest ih =>
    by_cases ha : a.id = i
    · rw [removeFirstWithId, if_pos (by simpa using ha)]
      rw [List.filter_cons]
      simp [ha]
    · rw [removeFirstWithId, if_neg (by simpa using ha)]
      rw [List.filter_cons, List.filter_cons]
      simp [ha]
      simpa using ih

theorem removeFirstWithId_sublist (records : List Address) (i : Nat) :
    (removeFirstWithId records i).Sublist records := by
  induction records with
  | nil => exact List.Sublist.refl _
  | cons a rest ih =>
    by_cases ha : a.id == i
    · rw [removeFirstWithId, if_pos ha]
      exact List.sublist_cons_self a rest
    · rw [removeFirstWithId, if_neg ha]
      exact ih.cons₂ a

theorem not_mem_removeFirstWithId {records : List Address} {i : Nat}
    (h : uniqueIds records) : ∀ r ∈ removeFirstWithId records i, r.id ≠ i := by
  induction records with
  | nil => intro r hr; simp [removeFirstWithId] at hr
  | cons a rest ih =>
    rcases List.pairwise_cons.mp h with ⟨hhead, htail⟩
    by_cases ha : a.id = i
    · rw [removeFirstWithId, if_pos (by simpa using ha)]
      intro r hr hri
      exact hhead r hr (by rw [ha, hri])
    · rw [removeFirstWithId, if_neg (by simpa using ha)]
      intro r hr
      rcases List.mem_cons.mp hr with h' | h'
      · exact h' ▸ ha
      · exact ih htail r h'

/-! ### Computation lemmas for the handlers -/

theorem create_records_eq (a : AddressCreate) (s : Store) :
    (create_address a s).2.records = s.records ++ [(create_address a s).1] := rfl

theorem create_id_eq (a : AddressCreate) (s : Store) :
    (create_address a s).1.id = s.nextId := rfl

theorem create_nextId_eq (a : AddressCreate) (s : Store) :
    (create_address a s).2.nextId = s.nextId + 1 := rfl

theorem update_address_of_none {s : Store} {i : Nat} (hf : firstWithId s.records i = none)
    (u : AddressUpdate) : update_address i u s = .error notFoundError := by
  simp only [update_address, hf]

theorem update_address_of_some {s : Store} {i : Nat} {db : Address}
    (hf : firstWithId s.records i = some db) (u : AddressUpdate) :
    update_address i u s =
      .ok (applyDump u.dump db,
        ⟨replaceFirstWithId s.records i (applyDump u.dump db), s.nextId⟩) := by
  simp only [update_address, hf]

theorem delete_address_of_none {s : Store} {i : Nat} (hf : firstWithId s.records i = none) :
    delete_address i s = .error notFoundError := by
  simp only [delete_address, hf]

theorem delete_address_of_some {s : Store} {i : Nat} {db : Address}
    (hf : firstWithId s.records i = some db) :
    delete_address i s = .ok (db, ⟨removeFirstWithId s.records i, s.nextId⟩) := by
  simp only [delete_address, hf]

/-! ### The store invariant and its preservation -/

/-- The store invariant: live primary keys are pairwise distinct and all
below the auto-increment counter. -/
def goodStore (s : Store) : Prop := uniqueIds s.records ∧ idsBelow s

theorem goodStore_initialStore : goodStore initialStore := by
  constructor
  · exact List.Pairwise.nil
  · intro r hr
    simp [initialStore] at hr

theorem uniqueIds_replaceFirstWithId {records : List Address} {i : Nat} {u : Address}
    (hu : u.id = i) (h : uniqueIds records) : uniqueIds (replaceFirstWithId records i u) := by
  induction records with
  | nil => exact h
  | cons a rest ih =>
    rcases List.pairwise_cons.mp h with ⟨hhead, htail⟩
    by_cases ha : a.id = i
    · rw [replaceFirstWithId, if_pos (by simpa using ha)]
      refine List.pairwise_cons.mpr ⟨?_, htail⟩
      intro b hb
      rw [hu, ← ha]
      exact hhead b hb
    · rw [replaceFirstWithId, if_neg (by simpa using ha)]
      refine List.pairwise_cons.mpr ⟨?_, ih htail⟩
      intro b hb
      rcases mem_replaceFirstWithId hb with h' | h'
      · exact hhead b h'
      · rw [h', hu]
        exact ha

theorem goodStore_create (a : AddressCreate) {s : Store} (h : goodStore s) :
    goodStore (create_address a s).2 := by
  rcases h with ⟨hu, hb⟩
  constructor
  · rw [uniqueIds, create_records_eq]
    refine List.pairwise_append.mpr ⟨hu, ?_, ?_⟩
    · exact List.pairwise_singleton _ _
    · intro x hx y hy
      have hy' : y = (create_address a s).1 := by simpa using hy
      rw [hy', create_id_eq]
      exact Nat.ne_of_lt (hb x hx)
  · intro r hr
    rw [create_records_eq] at hr
    rw [create_nextId_eq]
    rcases List.mem_append.mp hr with h' | h'
    · exact Nat.lt_succ_of_lt (hb r h')
    · have h'' : r = (create_address a s).1 := by simpa using h'
      rw [h'', create_id_eq]
      exact Nat.lt_succ_self _

theorem goodStore_update {s : Store} (h : goodStore s) (i : Nat) (u : AddressUpdate)
    {a : Address} {s2 : Store} (heq : update_address i u s = .ok (a, s2)) : goodStore s2 := by
  rcases h with ⟨hu, hb⟩
  cases hf : firstWithId s.records i with
  | none =>
    rw [update_address_of_none hf] at heq
    exact absurd heq (by simp)
  | some db =>
    rw [update_address_of_some hf] at heq
    have hid : (applyDump u.dump db).id = i := by
      rw [applyDump_id]
      exact id_of_firstWithId hf
    have hs2 : s2 = ⟨replaceFirstWithId s.records i (applyDump u.dump db), s.nextId⟩ := by
      cases heq
      rfl
    subst hs2
    constructor
    · exact uniqueIds_replaceFirstWithId hid hu
    · intro r hr
      rcases mem_replaceFirstWithId hr with h' | h'
      · exact hb r h'
      · rw [h', applyDump_id]
        exact hb db (mem_of_firstWithId hf)

theorem goodStore_delete {s : Store} (h : goodStore s) (i : Nat)
    {a : Address} {s2 : Store} (heq : delete_address i s = .ok (a, s2)) : goodStore s2 := by
  rcases h with ⟨hu, hb⟩
  cases hf : firstWithId s.records i with
  | none =>
    rw [delete_address_of_none hf] at heq
    exact absurd heq (by simp)
  | some db =>
    rw [delete_address_of_some hf] at heq
    have hs2 : s2 = ⟨removeFirstWithId s.records i, s.nextId⟩ := by
      cases heq
      rfl
    subst hs2
    constructor
    · exact List.Pairwise.sublist (removeFirstWithId_sublist _ _) hu
    · intro r hr
      exact hb r ((removeFirstWithId_sublist _ _).subset hr)

theorem goodStore_applyOp {s : Store} (h : goodStore s) (op : Op) : goodStore (applyOp s op) := by
  cases op with
  | createOp a => exact goodStore_create a h
  | updateOp i u =>
    cases heq : update_address i u s with
    | ok r =>
      obtain ⟨a2, st2⟩ := r
      simp only [applyOp, heq]
      exact goodStore_update h i u heq
    | error e => simpa only [applyOp, heq] using h
  | deleteOp i =>
    cases heq : delete_address i s with
    | ok r =>
      obtain ⟨a2, st2⟩ := r
      simp only [applyOp, heq]
      exact goodStore_delete h i heq
    | error e => simpa only [applyOp, heq] using h

theorem goodStore_runOps (ops : List Op) {s : Store} (h : goodStore s) :
    goodStore (runOps s ops) := by
  induction ops generalizing s with
  | nil => exact h
  | cons op rest ih => exact ih (goodStore_applyOp h op)

theorem nextId_le_applyOp (s : Store) (op : Op) : s.nextId ≤ (applyOp s op).nextId := by
  cases op with
  | createOp a => exact Nat.le_succ _
  | updateOp i u =>
    cases heq : update_address i u s with
    | ok r =>
      simp only [applyOp, heq]
      cases hf : firstWithId s.records i with
      | none =>
        rw [update_address_of_none hf] at heq
        exact absurd heq (by simp)
      | some db =>
        rw [update_address_of_some hf] at heq
        cases heq
        exact Nat.le_refl _
    | error e => simp [applyOp, heq]
  | deleteOp i =>
    cases heq : delete_address i s with
    | ok r =>
      simp only [applyOp, heq]
      cases hf : firstWithId s.records i with
      | none =>
        rw [delete_address_of_none hf] at heq
        exact absurd heq (by simp)
      | some db =>
        rw [delete_address_of_some hf] at heq
        cases heq
        exact Nat.le_refl _
    | error e => simp [applyOp, heq]

theorem le_of_mem_assignedIds (ops : List Op) (s : Store) :
    ∀ j ∈ assignedIds s ops, s.nextId ≤ j := by
  induction ops generalizing s with
  | nil =>
    intro j hj
    simp [assignedIds] at hj
  | cons op rest ih =>
    intro j hj
    cases op with
    | createOp a =>
      simp only [assignedIds] at hj
      rcases List.mem_cons.mp hj with h' | h'
      · rw [h', create_id_eq]
      · have h1 := ih (applyOp s (Op.createOp a)) j h'
        exact le_trans (nextId_le_applyOp s (Op.createOp a)) h1
    | updateOp i u =>
      simp only [assignedIds] at hj
      exact le_trans (nextId_le_applyOp s (Op.updateOp i u)) (ih _ j hj)
    | deleteOp i =>
      simp only [assignedIds] at hj
      exact le_trans (nextId_le_applyOp s (Op.deleteOp i)) (ih _ j hj)

theorem assignedIds_sorted (ops : List Op) (s : Store) :
    (assignedIds s ops).Pairwise (· < ·) := by
  induction ops generalizing s with
  | nil => exact List.Pairwise.nil
  | cons op rest ih =>
    cases op with
    | createOp a =>
      simp only [assignedIds]
      refine List.pairwise_cons.mpr ⟨?_, ih _⟩
      intro j hj
      have h1 := le_of_mem_assignedIds rest (applyOp s (Op.createOp a)) j hj
      have h2 : (applyOp s (Op.createOp a)).nextId = s.nextId + 1 := rfl
      have h3 : (create_address a s).1.id = s.nextId := rfl
      omega
    | updateOp i u =>
      simp only [assignedIds]
      exact ih _
    | deleteOp i =>
      simp only [assignedIds]
      exact ih _

/-! ### Claim theorems -/

/-- Claim C1: for every list of stored records, every reference coordinate
and every radius, the proximity query includes a record in its result if
and only if the distance (the external geodesic-kilometers function,
passed as `dist`) between the reference point and the record's coordinates
is at most the radius; the boundary is inclusive because the comparison is
`≤`. -/
theorem within_distance_mem_iff_dist_le (dist : ℚ → ℚ → ℚ → ℚ → ℚ)
    (ref_latitude ref_longitude max_km : ℚ) (addresses : List Address) (r : Address) :
    r ∈ get_addresses_within_distance dist ref_latitude ref_longitude max_km addresses ↔
      r ∈ addresses ∧ dist ref_latitude ref_longitude r.latitude r.longitude ≤ max_km :=
  mem_within_iff dist ref_latitude ref_longitude max_km addresses r

/-- Claim C2: for every input list and every query, the output of the
proximity query is a subsequence of the input (same relative order, no
reordering, duplication or fabrication), and it is exactly the filter of
the input by the distance predicate. -/
theorem within_distance_is_ordered_filter (dist : ℚ → ℚ → ℚ → ℚ → ℚ)
    (ref_latitude ref_longitude max_km : ℚ) (addresses : List Address) :
    (get_addresses_within_distance dist ref_latitude ref_longitude max_km addresses).Sublist
        addresses ∧
      get_addresses_within_distance dist ref_latitude ref_longitude max_km addresses =
        addresses.filter
          (fun a => decide (dist ref_latitude ref_longitude a.latitude a.longitude ≤ max_km)) :=
  ⟨within_sublist dist ref_latitude ref_longitude max_km addresses,
    within_eq_filter dist ref_latitude ref_longitude max_km addresses⟩

/-- Claim C3: create and the proximity query are total — create accepts
any well-typed payload, including out-of-range coordinates, and stores the
fields as-is, while the query always returns a sublist of the stored
records — and whenever update or delete fails, the failure is exactly the
404 "Address not found" error. -/
theorem create_and_query_total_fail_only_notFound (address : AddressCreate) (s : Store)
    (dist : ℚ → ℚ → ℚ → ℚ → ℚ) (la lo d : ℚ) (i : Nat) (u : AddressUpdate)
    (e1 e2 : HTTPError)
    (h1 : update_address i u s = .error e1) (h2 : delete_address i s = .error e2) :
    (create_address address s).1.name = address.name ∧
      (create_address address s).1.latitude = address.latitude ∧
      (create_address address s).1.longitude = address.longitude ∧
      (create_address address s).1 ∈ (create_address address s).2.records ∧
      (get_addresses_within_distance dist la lo d s.records).Sublist s.records ∧
      e1 = notFoundError ∧ e2 = notFoundError := by
  refine ⟨rfl, rfl, rfl, ?_, within_sublist dist la lo d s.records, ?_, ?_⟩
  · rw [create_records_eq]
    simp
  · cases hf : firstWithId s.records i with
    | none =>
      rw [update_address_of_none hf u] at h1
      exact (Except.error.injEq _ _).mp h1.symm
    | some db =>
      rw [update_address_of_some hf u] at h1
      exact absurd h1 (by simp)
  · cases hf : firstWithId s.records i with
    | none =>
      rw [delete_address_of_none hf] at h2
      exact (Except.error.injEq _ _).mp h2.symm
    | some db =>
      rw [delete_address_of_some hf] at h2
      exact absurd h2 (by simp)

/-- Witness for C3: a latitude of 200 and a longitude of 500 (both far out
of range) are stored as-is by create on the fresh store, and the update
and delete failures on the fresh store carry exactly the 404 error. -/
theorem create_and_query_total_fail_only_notFound_witness :
    (create_address ⟨"spot", 200, 500⟩ initialStore).1.latitude = 200 ∧
      (create_address ⟨"spot", 200, 500⟩ initialStore).1 ∈
        (create_address ⟨"spot", 200, 500⟩ initialStore).2.records ∧
      notFoundError = notFoundError := by
  have h := create_and_query_total_fail_only_notFound ⟨"spot", 200, 500⟩ initialStore
    (fun _ _ _ _ => 0) 0 0 0 1 ⟨"x", 0, 0⟩ notFoundError notFoundError rfl rfl
  exact ⟨h.2.1, h.2.2.2.1, h.2.2.2.2.2.1⟩

/-- Claim C4: update fails, and fails exactly with the 404 "Address not
found" error, if and only if no live record has the given id; when a
record with that id exists, update overwrites all three of its fields with
the payload values, keeps its id, and returns the updated record, which is
live in the resulting store. -/
theorem update_notFound_iff_else_overwrites (i : Nat) (u : AddressUpdate) (s : Store) :
    (∀ e, update_address i u s = .error e ↔
        (e = notFoundError ∧ ∀ r ∈ s.records, r.id ≠ i)) ∧
      ∀ a s2, update_address i u s = .ok (a, s2) →
        a.id = i ∧ a.name = u.name ∧ a.latitude = u.latitude ∧ a.longitude = u.longitude ∧
          a ∈ s2.records := by
  constructor
  · intro e
    constructor
    · intro he
      cases hf : firstWithId s.records i with
      | none =>
        rw [update_address_of_none hf u] at he
        exact ⟨(Except.error.injEq _ _).mp he.symm, (firstWithId_eq_none _ _).mp hf⟩
      | some db =>
        rw [update_address_of_some hf u] at he
        exact absurd he (by simp)
    · rintro ⟨he, hall⟩
      rw [update_address_of_none ((firstWithId_eq_none _ _).mpr hall) u, he]
  · intro a s2 heq
    cases hf : firstWithId s.records i with
    | none =>
      rw [update_address_of_none hf u] at heq
      exact absurd heq (by simp)
    | some db =>
      rw [update_address_of_some hf u] at heq
      cases heq
      rw [applyDump_dump]
      exact ⟨(id_of_firstWithId hf : db.id = i), rfl, rfl, rfl,
        self_mem_replaceFirstWithId hf _⟩

/-- Witness for C4: on the one-record demo store, updating the missing
id 2 yields exactly the 404 error, and updating the existing id 1 with
name "b", latitude 5, longitude 6 leaves the overwritten record live. -/
theorem update_notFound_iff_else_overwrites_witness :
    update_address 2 ⟨"b", 5, 6⟩ demoStore = .error notFoundError ∧
      (⟨1, "b", 5, 6⟩ : Address) ∈ (⟨[⟨1, "b", 5, 6⟩], 2⟩ : Store).records := by
  constructor
  · exact ((update_notFound_iff_else_overwrites 2 ⟨"b", 5, 6⟩ demoStore).1 notFoundError).mpr
      ⟨rfl, by decide⟩
  · exact ((update_notFound_iff_else_overwrites 1 ⟨"b", 5, 6⟩ demoStore).2
      ⟨1, "b", 5, 6⟩ ⟨[⟨1, "b", 5, 6⟩], 2⟩ rfl).2.2.2.2

/-- Claim C5: when live ids are unique (the store invariant), delete
fails, and fails exactly with the 404 "Address not found" error, if and
only if no live record has the given id; when the record exists, delete
returns the pre-deletion snapshot and removes it — no record with that id
remains live, so a subsequent update or delete of the same id fails with
the 404 error; in particular two consecutive deletes have the first
succeed and the second fail. -/
theorem delete_notFound_iff_else_removes (i : Nat) (s : Store) (hs : uniqueIds s.records) :
    (∀ e, delete_address i s = .error e ↔
        (e = notFoundError ∧ ∀ r ∈ s.records, r.id ≠ i)) ∧
      ∀ a s2, delete_address i s = .ok (a, s2) →
        a ∈ s.records ∧ a.id = i ∧ (∀ r ∈ s2.records, r.id ≠ i) ∧
          (∀ u, update_address i u s2 = .error notFoundError) ∧
          delete_address i s2 = .error notFoundError := by
  constructor
  · intro e
    constructor
    · intro he
      cases hf : firstWithId s.records i with
      | none =>
        rw [delete_address_of_none hf] at he
        exact ⟨(Except.error.injEq _ _).mp he.symm, (firstWithId_eq_none _ _).mp hf⟩
      | some db =>
        rw [delete_address_of_some hf] at he
        exact absurd he (by simp)
    · rintro ⟨he, hall⟩
      rw [delete_address_of_none ((firstWithId_eq_none _ _).mpr hall), he]
  · intro a s2 heq
    cases hf : firstWithId s.records i with
    | none =>
      rw [delete_address_of_none hf] at heq
      exact absurd heq (by simp)
    | some db =>
      rw [delete_address_of_some hf] at heq
      cases heq
      refine ⟨mem_of_firstWithId hf, id_of_firstWithId hf,
        not_mem_removeFirstWithId hs, ?_, ?_⟩
      · intro u
        exact update_address_of_none
          ((firstWithId_eq_none _ _).mpr (not_mem_removeFirstWithId hs)) u
      · exact delete_address_of_none
          ((firstWithId_eq_none _ _).mpr (not_mem_removeFirstWithId hs))

/-- Witness for C5: deleting id 1 from the one-record demo store succeeds
and returns the snapshot, and deleting id 1 again from the resulting
store fails with the 404 error. -/
theorem delete_notFound_iff_else_removes_witness :
    delete_address 1 demoStore = .ok (⟨1, "origin", 0, 0⟩, ⟨[], 2⟩) ∧
      delete_address 1 (⟨[], 2⟩ : Store) = .error notFoundError := by
  have h := delete_notFound_iff_else_removes 1 demoStore (List.pairwise_singleton _ _)
  exact ⟨rfl, (h.2 ⟨1, "origin", 0, 0⟩ ⟨[], 2⟩ rfl).2.2.2.2⟩

theorem distSpec_poleDist : DistSpec poleDist := by
  constructor
  · intro la lo la2 lo2
    unfold poleDist
    split
    · exact le_refl 0
    · exact add_nonneg (abs_nonneg _) (abs_nonneg _)
  · intro la lo
    unfold poleDist
    split
    · rfl
    · simp

theorem distSpec_taxiDist : DistSpec taxiDist := by
  constructor
  · intro la lo la2 lo2
    exact add_nonneg (abs_nonneg _) (abs_nonneg _)
  · intro la lo
    simp [taxiDist]

theorem taxiDist_definite (la lo la2 lo2 : ℚ) (h0 : taxiDist la lo la2 lo2 = 0) :
    la2 = la ∧ lo2 = lo := by
  unfold taxiDist at h0
  have ha := abs_nonneg (la - la2)
  have hb := abs_nonneg (lo - lo2)
  have h1 : |la - la2| = 0 := by linarith
  have h2 : |lo - lo2| = 0 := by linarith
  have h1' := abs_eq_zero.mp h1
  have h2' := abs_eq_zero.mp h2
  constructor <;> linarith

/-- Counterexample for claim C6: with a distance function having the
properties the spec states of the geodesic distance (nonnegative,
coincident coordinates at distance 0), the radius-0 query need not return
exactly the records whose coordinate pair equals the reference pair.  On
the ellipsoidal Earth all longitudes at latitude 90 are the same point
(the north pole), so a record at (90, 50) is at distance 0 from the
reference (90, 0) and is returned although its coordinates differ. -/
theorem within_zero_coords_counterexample :
    ¬ ∀ dist : ℚ → ℚ → ℚ → ℚ → ℚ, DistSpec dist →
        ∀ (addresses : List Address) (lat lon : ℚ) (r : Address),
          r ∈ get_addresses_within_distance dist lat lon 0 addresses ↔
            (r ∈ addresses ∧ r.latitude = lat ∧ r.longitude = lon) := by
  intro h
  have h1 := (h poleDist distSpec_poleDist [⟨1, "north pole", 90, 50⟩] 90 0
    ⟨1, "north pole", 90, 50⟩).mp (by decide)
  have h2 : (50 : ℚ) = 0 := h1.2.2
  norm_num at h2

/-- Claim C6 (amended): for every distance function with the spec's
stated geodesic properties, the radius-0 query returns exactly the records
at distance 0 from the reference; this is the set of records whose
coordinates equal the reference pair provided the distance function is
additionally definite — distinct coordinate pairs always at positive
distance — which the geodesic distance of the spec is not (coordinate
pairs denoting the same surface point, such as any two longitudes at the
poles, are at distance 0). -/
theorem within_zero_coords_of_definite (dist : ℚ → ℚ → ℚ → ℚ → ℚ)
    (hspec : DistSpec dist)
    (hdef : ∀ la lo la2 lo2, dist la lo la2 lo2 = 0 → la2 = la ∧ lo2 = lo)
    (addresses : List Address) (lat lon : ℚ) (r : Address) :
    r ∈ get_addresses_within_distance dist lat lon 0 addresses ↔
      (r ∈ addresses ∧ r.latitude = lat ∧ r.longitude = lon) := by
  rw [mem_within_iff]
  constructor
  · rintro ⟨hm, hd⟩
    have h0 : dist lat lon r.latitude r.longitude = 0 :=
      le_antisymm hd (hspec.1 _ _ _ _)
    exact ⟨hm, hdef _ _ _ _ h0⟩
  · rintro ⟨hm, hla, hlo⟩
    refine ⟨hm, ?_⟩
    rw [hla, hlo]
    exact le_of_eq (hspec.2 lat lon)

/-- Witness for the amended C6: with the definite taxicab distance, a
record co-located with the reference point (3, 4) is returned by the
radius-0 query. -/
theorem within_zero_coords_of_definite_witness :
    (⟨1, "origin", 3, 4⟩ : Address) ∈
      get_addresses_within_distance taxiDist 3 4 0 [⟨1, "origin", 3, 4⟩] :=
  (within_zero_coords_of_definite taxiDist distSpec_taxiDist taxiDist_definite
    [⟨1, "origin", 3, 4⟩] 3 4 ⟨1, "origin", 3, 4⟩).mpr
    ⟨List.mem_singleton.mpr rfl, rfl, rfl⟩

/-- Claim C7: in any reachable store state, create returns a record
carrying the request's name, latitude and longitude, the listed records
afterwards are exactly the previous ones followed by the new record, and
the new record's id differs from the id of every previously live record. -/
theorem create_appends_fresh_record (ops : List Op) (address : AddressCreate) :
    (create_address address (runOps initialStore ops)).1.name = address.name ∧
      (create_address address (runOps initialStore ops)).1.latitude = address.latitude ∧
      (create_address address (runOps initialStore ops)).1.longitude = address.longitude ∧
      (create_address address (runOps initialStore ops)).2.records =
        (runOps initialStore ops).records ++
          [(create_address address (runOps initialStore ops)).1] ∧
      ∀ r ∈ (runOps initialStore ops).records,
        r.id ≠ (create_address address (runOps initialStore ops)).1.id := by
  refine ⟨rfl, rfl, rfl, create_records_eq _ _, ?_⟩
  intro r hr
  have hg := goodStore_runOps ops goodStore_initialStore
  rw [create_id_eq]
  exact Nat.ne_of_lt (hg.2 r hr)

/-- Witness for C7: after one create, a second create returns a record
named "b" whose id differs from the live record's id 1. -/
theorem create_appends_fresh_record_witness :
    (create_address ⟨"b", 3, 4⟩ (runOps initialStore [Op.createOp ⟨"a", 1, 2⟩])).1.name = "b" ∧
      (⟨1, "a", 1, 2⟩ : Address).id ≠
        (create_address ⟨"b", 3, 4⟩ (runOps initialStore [Op.createOp ⟨"a", 1, 2⟩])).1.id := by
  have h := create_appends_fresh_record [Op.createOp ⟨"a", 1, 2⟩] ⟨"b", 3, 4⟩
  exact ⟨h.1, h.2.2.2.2 ⟨1, "a", 1, 2⟩ (by decide)⟩

/-- Claim C8: after any sequence of create, update and delete operations
from the fresh store, the live records carry pairwise-distinct ids, and
the ids handed out by the create operations of the run are pairwise
distinct — in particular an id freed by a delete is never assigned
again. -/
theorem ids_unique_and_never_reused (ops : List Op) :
    uniqueIds (runOps initialStore ops).records ∧ (assignedIds initialStore ops).Nodup := by
  constructor
  · exact (goodStore_runOps ops goodStore_initialStore).1
  · exact List.Pairwise.imp Nat.ne_of_lt (assignedIds_sorted ops initialStore)

/-- Claim C9: a successful update keeps the target's id and leaves the
sequence of records with any other id untouched, and a successful delete
likewise leaves the sequence of records with any other id untouched. -/
theorem update_delete_frame (i : Nat) (u : AddressUpdate) (s : Store) :
    (∀ a s2, update_address i u s = .ok (a, s2) →
        a.id = i ∧
          s2.records.filter (fun r => decide (r.id ≠ i)) =
            s.records.filter (fun r => decide (r.id ≠ i))) ∧
      ∀ a s2, delete_address i s = .ok (a, s2) →
        s2.records.filter (fun r => decide (r.id ≠ i)) =
          s.records.filter (fun r => decide (r.id ≠ i)) := by
  constructor
  · intro a s2 heq
    cases hf : firstWithId s.records i with
    | none =>
      rw [update_address_of_none hf u] at heq
      exact absurd heq (by simp)
    | some db =>
      rw [update_address_of_some hf u] at heq
      cases heq
      constructor
      · rw [applyDump_id]
        exact id_of_firstWithId hf
      · exact filter_replaceFirstWithId s.records i _
          (by rw [applyDump_id]; exact id_of_firstWithId hf)
  · intro a s2 heq
    cases hf : firstWithId s.records i with
    | none =>
      rw [delete_address_of_none hf] at heq
      exact absurd heq (by simp)
    | some db =>
      rw [delete_address_of_some hf] at heq
      cases heq
      exact filter_removeFirstWithId s.records i

/-- Witness for C9: on the one-record demo store, updating id 1 and
deleting id 1 both leave the (empty) sequence of records with other ids
unchanged. -/
theorem update_delete_frame_witness :
    (⟨[⟨1, "b", 5, 6⟩], 2⟩ : Store).records.filter (fun r => decide (r.id ≠ 1)) =
        demoStore.records.filter (fun r => decide (r.id ≠ 1)) ∧
      (⟨[], 2⟩ : Store).records.filter (fun r => decide (r.id ≠ 1)) =
        demoStore.records.filter (fun r => decide (r.id ≠ 1)) := by
  have h := update_delete_frame 1 ⟨"b", 5, 6⟩ demoStore
  exact ⟨(h.1 ⟨1, "b", 5, 6⟩ ⟨[⟨1, "b", 5, 6⟩], 2⟩ rfl).2,
    h.2 ⟨1, "origin", 0, 0⟩ ⟨[], 2⟩ rfl⟩

/-- Claim C10: the update as written — assigning each dumped field only
when it `is not None` — coincides with the spec's unconditional full
overwrite on every input, because the well-typed payload has all three
fields required, so no dumped value is ever `None` and the guard branch is
unreachable. -/
theorem update_equiv_unconditional_overwrite (i : Nat) (u : AddressUpdate) (s : Store) :
    update_address i u s = update_address_overwrite i u s := by
  cases hf : firstWithId s.records i with
  | none =>
    rw [update_address_of_none hf u]
    simp only [update_address_overwrite, hf]
  | some db =>
    rw [update_address_of_some hf u]
    simp only [update_address_overwrite, hf]
    rw [applyDump_dump]

end AddressBook
